import Mathlib

/-!
Verification of the constellation_models abstract-vectorization pipeline
(`abstract_tfidf_vectorization` notebook): text normalization, count and
TF-IDF vectorization, cosine-similarity construction, spectral-embedding
affinity handling, and top-N similarity compaction.

The Python source is shallowly embedded below.  External-library calls
(NLTK tokenizers and stemmer, scikit-learn vectorizers, pandas `nlargest`)
are embedded by their documented behavior; each such definition carries a
doc comment saying what exactly is being modelled.  Machine floats are
modelled over `ℝ` (exact arithmetic) and, where decidable evaluation is
needed, over `ℚ`.
-/

namespace Constellation

/-! ## Python string primitives -/

/-- The Python constant `string.punctuation`. -/
def pythonPunctuation : String := "!\"#$%&'()*+,-./:;<=>?@[\\]^_\x60\x7b|\x7d~"

/-- Whether `sub` occurs at the head of `s` (helper for the substring test). -/
def matchesAt : List Char → List Char → Bool
  | [], _ => true
  | _ :: _, [] => false
  | a :: as, b :: bs => a = b && matchesAt as bs

/-- Whether `sub` occurs contiguously anywhere inside `s`. -/
def occursWithin (sub : List Char) : List Char → Bool
  | [] => sub.isEmpty
  | c :: cs => matchesAt sub (c :: cs) || occursWithin sub cs

/-- The Python expression `sub in s` for strings: a contiguous-substring test.
This is the test `word not in punctuation` actually performs in the source
(membership on a `str`, not on a set of characters). -/
def pyIn (sub s : String) : Bool := occursWithin sub.toList s.toList

/-- The Python method `str.isupper` (over the ASCII range the corpus uses):
true iff the string has at least one cased character and no lowercase one. -/
def pyIsUpper (w : String) : Bool :=
  w.toList.any (fun c => c.isAlpha) && w.toList.all (fun c => !c.isAlpha || c.isUpper)

/-- The Python method `str.lower` (ASCII case folding, as in the source corpus). -/
def pyLower (s : String) : String := String.mk (s.toList.map Char.toLower)

/-- A token consisting solely of punctuation characters (the notion the spec's
"punctuation-only token" refers to). -/
def isPunctOnly (w : String) : Bool :=
  !w.toList.isEmpty && w.toList.all (fun c => pythonPunctuation.toList.contains c)

/-! ## Text normalizer (`tokenize_and_lowercase`, `all_preprocess`) -/

/-- The external NLTK functions used by the normalizer, kept abstract: the
Punkt sentence tokenizer, the Treebank word tokenizer and the Snowball
stemmer are library code, not part of this repository's source. -/
structure NLP where
  sent_tokenize : String → List String
  word_tokenize : String → List String
  stem : String → String

/-- The per-token case policy of `tokenize_and_lowercase`, exactly the source
expression `word if (word.isupper() or i > 0) and len(word) > 1 else word.lower()`
where `i` is the token's position in `enumerate(word_tokenize(sent))`. -/
def caseNormalize (i : ℕ) (word : String) : String :=
  if (pyIsUpper word = true ∨ 0 < i) ∧ 1 < word.length then word else pyLower word

/-- The source function `tokenize_and_lowercase`: sentence-split, word-split
with positions, drop tokens that are substrings of `string.punctuation`
(the Python test `word not in punctuation`), apply the case policy. -/
def tokenize_and_lowercase (nlp : NLP) (doc_str : String) : List String :=
  (nlp.sent_tokenize doc_str).flatMap (fun sent =>
    ((nlp.word_tokenize sent).enum).filterMap (fun p =>
      if pyIn p.2 pythonPunctuation then none else some (caseNormalize p.1 p.2)))

/-- The source function `all_preprocess`: keep tokens not in `all_stopwords`
(a case-sensitive list-membership test), then stem each survivor. -/
def all_preprocess (nlp : NLP) (all_stopwords : List String) (doc_str : String) :
    List String :=
  ((tokenize_and_lowercase nlp doc_str).filter
    (fun w => !all_stopwords.contains w)).map nlp.stem

/-- Modelled from NLTK (library code, not in src): `SnowballStemmer("english").stem`
first lowercases its argument and returns words of length at most 2 unchanged;
longer words go through the English (Porter2) suffix rules, abstracted here
as the parameter `rules` acting on the lowercased word. -/
def nltk_stem (rules : String → String) (w : String) : String :=
  let lw := pyLower w
  if lw.length ≤ 2 then lw else rules lw

/-- Modelled from NLTK (library code, not in src): the Punkt sentence
tokenizer yields no sentences on empty or whitespace-only input, and one
sentence for the single-sentence texts used in the concrete examples. -/
def simple_sent_tokenize (s : String) : List String :=
  if s.toList.all Char.isWhitespace then [] else [s]

/-- Helper for `simple_word_tokenize`: split a character list on spaces. -/
def wordsAux : List Char → List Char → List String
  | [], acc => if acc.isEmpty then [] else [String.mk acc.reverse]
  | c :: cs, acc =>
      if c = ' ' then
        (if acc.isEmpty then wordsAux cs [] else String.mk acc.reverse :: wordsAux cs [])
      else wordsAux cs (c :: acc)

/-- Modelled from NLTK (library code, not in src): the word tokenizer on the
space-separated example texts used below returns the space-separated tokens
(NLTK's Treebank tokenizer also emits `--` and `.` as standalone tokens,
which the examples spell with surrounding spaces). -/
def simple_word_tokenize (s : String) : List String := wordsAux s.toList []

/-- A concrete instantiation of the external NLP collaborators, used to
evaluate the pipeline on concrete documents. -/
def simpleNLP (rules : String → String) : NLP :=
  ⟨simple_sent_tokenize, simple_word_tokenize, nltk_stem rules⟩

/-! ## Vocabulary builder and term-frequency vectorizer (`count_vectorizer`) -/

/-- Document frequency of term `t` over a corpus of normalized token lists:
the number of documents containing `t` at least once. -/
def doc_freq (corpus : List (List String)) (t : String) : ℕ :=
  (corpus.filter (fun d => d.contains t)).length

/-- All distinct terms occurring in the corpus, in first-seen order.
(scikit-learn's `CountVectorizer` additionally sorts the surviving terms
alphabetically to assign column indices; membership is unaffected.) -/
def allTerms (corpus : List (List String)) : List String := corpus.flatten.dedup

/-- The vocabulary of `CountVectorizer` with the `min_df` document-frequency
cutoff: occurring terms whose document frequency reaches `min_df`.
Terms below the cutoff are removed from the vocabulary entirely. -/
def vocabulary (corpus : List (List String)) (min_df : ℕ) : List String :=
  (allTerms corpus).filter (fun t => decide (min_df ≤ doc_freq corpus t))

/-- A document's term-count vector: one `(term, raw count)` component per
vocabulary entry, and nothing else (pruned terms have no component at all). -/
def term_vector (vocab : List String) (d : List String) : List (String × ℕ) :=
  vocab.map (fun t => (t, d.count t))

/-! ## TF-IDF weighter (`tf_idf_vectorizer`) -/

/-- Sum of squares of a real vector. -/
def sumSq (v : List ℝ) : ℝ := (v.map (fun x => x ^ 2)).sum

/-- Euclidean (L2) norm of a real vector. -/
noncomputable def l2norm (v : List ℝ) : ℝ := Real.sqrt (sumSq v)

/-- Modelled from scikit-learn (library code, not in src): `normalize(X, "l2")`
as used by `TfidfTransformer(norm = "l2")` divides each row by its L2 norm,
leaving all-zero rows (norm 0) unchanged. -/
noncomputable def l2_normalize (v : List ℝ) : List ℝ :=
  if l2norm v = 0 then v else v.map (fun x => x / l2norm v)

/-- Modelled from scikit-learn (library code, not in src): the smoothed
inverse document frequency of `TfidfTransformer(smooth_idf = True)`,
`ln((1 + n) / (1 + df)) + 1` for corpus size `n`. -/
noncomputable def smooth_idf (n df_t : ℕ) : ℝ := Real.log ((1 + n) / (1 + df_t)) + 1

/-- The unnormalized tf-idf vector: raw term counts scaled by per-term idf. -/
noncomputable def raw_tfidf (counts : List ℕ) (idfs : List ℝ) : List ℝ :=
  List.zipWith (fun c v => (c : ℝ) * v) counts idfs

/-- The source's `tf_idf_vectorizer` applied to one document: tf·idf
weighting followed by L2 normalization. -/
noncomputable def tf_idf_vectorizer (counts : List ℕ) (idfs : List ℝ) : List ℝ :=
  l2_normalize (raw_tfidf counts idfs)

/-! ## Similarity engine (`cosine_sims`) -/

/-- L2 norm of a row of the document matrix. -/
noncomputable def rowNorm {d : ℕ} (v : Fin d → ℝ) : ℝ := Real.sqrt (∑ k, v k ^ 2)

/-- The source's `cosine_sims = np.dot(doc_matrix, doc_matrix.transpose())`:
entry `(i, j)` is the dot product of document rows `i` and `j`. -/
noncomputable def cosine_sims {m d : ℕ} (V : Fin m → Fin d → ℝ) (i j : Fin m) : ℝ :=
  ∑ k, V i k * V j k

/-! ## Similarity compactor (`similarities_dict`) -/

/-- Ordering used by the compactor: descending similarity score. -/
def simGE (a b : ℕ × ℚ) : Prop := b.2 ≤ a.2

instance : DecidableRel simGE := fun a b => inferInstanceAs (Decidable (b.2 ≤ a.2))

instance : IsTotal (ℕ × ℚ) simGE := ⟨fun a b => le_total b.2 a.2⟩

instance : IsTrans (ℕ × ℚ) simGE := ⟨fun _ _ _ h1 h2 => le_trans h2 h1⟩

/-- Modelled from pandas (library code, not in src): `Series.nlargest(n)`
returns the `n` largest entries in descending order of value, breaking ties
by keeping earlier entries first (`keep = "first"`, a stable descending sort). -/
def nlargest (n : ℕ) (row : List (ℕ × ℚ)) : List (ℕ × ℚ) :=
  (List.insertionSort simGE row).take n

/-- The source's `similarities_dict` comprehension: for every document row of
the similarity matrix (the row indexed by all documents, itself included),
keep the `top_n` largest `(index, score)` pairs. -/
def similarities_dict (top_n : ℕ) (sims : List (List ℚ)) : List (List (ℕ × ℚ)) :=
  sims.map (fun row => nlargest top_n row.enum)

/-! ## Spectral embedder (`spectral_embedding`) -/

/-- Modelled from scikit-learn (library code, not in src):
`SpectralEmbedding(affinity = "precomputed")` uses the input matrix itself as
the affinity (weighted adjacency) matrix of the graph whose Laplacian is
decomposed; `n_neighbors` is not consulted on this code path (it only matters
for the `"nearest_neighbors"` affinity modes). -/
def sk_spectral_affinity (X : List (List ℚ)) (_n_neighbors : ℕ) : List (List ℚ) := X

/-- Modelled from the spec: the documents selected as the `n` most similar
other documents of document `i` (self excluded) in the claimed k-nearest-
neighbor graph construction. -/
def spec_knn_selected (X : List (List ℚ)) (n i : ℕ) : List ℕ :=
  (nlargest n (((X.getD i []).enum).filter (fun p => p.1 ≠ i))).map Prod.fst

/-- Modelled from the spec: the claimed symmetrized k-nearest-neighbor graph —
an edge exists iff either endpoint selected the other. -/
def spec_knn_edge (X : List (List ℚ)) (n i j : ℕ) : Bool :=
  (spec_knn_selected X n i).contains j || (spec_knn_selected X n j).contains i

/-! ## Full pipeline (determinism) -/

/-- Dot product of two real vectors. -/
noncomputable def dotList (u v : List ℝ) : ℝ := (List.zipWith (· * ·) u v).sum

/-- The run configuration of the pipeline, the random seed included. -/
structure PipelineConfig where
  min_df : ℕ
  k : ℕ
  n_init : ℕ
  seed : ℕ

/-- The whole pipeline as one function of its inputs: normalization, count
vectorization with `min_df` pruning, smoothed tf-idf with L2 normalization,
dense cosine-similarity matrix, spectral embedding and seeded k-means
(the latter two are external eigensolver/clustering routines, abstracted as
the parameters `embed` and `kmeans`; `kmeans` receives `k`, `n_init` and the
random seed).  Returns the vocabulary, the tf-idf vectors and the labels. -/
noncomputable def full_pipeline (nlp : NLP) (stop : List String)
    (embed : List (List ℝ) → List (List ℝ))
    (kmeans : List (List ℝ) → ℕ → ℕ → ℕ → List ℕ)
    (cfg : PipelineConfig) (corpus : List String) :
    List String × List (List ℝ) × List ℕ :=
  let tokens := corpus.map (all_preprocess nlp stop)
  let vocab := vocabulary tokens cfg.min_df
  let idfs := vocab.map (fun t => smooth_idf tokens.length (doc_freq tokens t))
  let counts := tokens.map (fun d => vocab.map (fun t => d.count t))
  let tfidf := counts.map (fun c => tf_idf_vectorizer c idfs)
  let sims := tfidf.map (fun u => tfidf.map (fun v => dotList u v))
  (vocab, tfidf, kmeans (embed sims) cfg.k cfg.n_init cfg.seed)

/-! ## Helper lemmas -/

theorem charToLower_idem (c : Char) : (c.toLower).toLower = c.toLower := by
  unfold Char.toLower
  by_cases h : c.toNat ≥ 65 ∧ c.toNat ≤ 90
  · simp only [h, if_true]
    obtain ⟨h1, h2⟩ := h
    set n := c.toNat with hn
    interval_cases n <;> simp only [le_refl, and_self, if_true, ge_iff_le] <;> decide
  · simp only [h, if_false]

theorem pyLower_idem (s : String) : pyLower (pyLower s) = pyLower s := by
  simp [pyLower, List.map_map, Function.comp_def, charToLower_idem]

theorem mem_enumFrom_of_get? {α : Type} :
    ∀ (l : List α) (n i : ℕ) (w : α), l.get? i = some w → (n + i, w) ∈ l.enumFrom n := by
  intro l
  induction l with
  | nil => intro n i w h; simp at h
  | cons a as ih =>
      intro n i w h
      cases i with
      | zero => simp_all
      | succ j =>
          have hmem := ih (n + 1) j w (by simpa using h)
          have : (n + (j + 1), w) ∈ (n, a) :: List.enumFrom (n + 1) as :=
            List.mem_cons_of_mem _ (by simpa [Nat.add_assoc, Nat.add_comm 1 j] using hmem)
          simpa [List.enumFrom] using this

theorem mem_enum_of_get? {α : Type} (l : List α) (i : ℕ) (w : α)
    (h : l.get? i = some w) : (i, w) ∈ l.enum := by
  simpa [List.enum] using mem_enumFrom_of_get? l 0 i w h

theorem mem_tokenize_and_lowercase (nlp : NLP) (doc t : String) :
    t ∈ tokenize_and_lowercase nlp doc ↔
      ∃ sent ∈ nlp.sent_tokenize doc, ∃ p ∈ (nlp.word_tokenize sent).enum,
        pyIn p.2 pythonPunctuation = false ∧ t = caseNormalize p.1 p.2 := by
  unfold tokenize_and_lowercase
  simp only [List.mem_flatMap, List.mem_filterMap]
  constructor
  · rintro ⟨sent, hs, p, hp, hf⟩
    by_cases h : pyIn p.2 pythonPunctuation
    · simp [h] at hf
    · rw [Bool.not_eq_true] at h
      simp only [h, Bool.false_eq_true, if_false, Option.some.injEq] at hf
      exact ⟨sent, hs, p, hp, h, hf.symm⟩
  · rintro ⟨sent, hs, p, hp, h1, h2⟩
    exact ⟨sent, hs, p, hp, by simp [h1, h2]⟩

/-! ## Claims about the text normalizer -/

/-- Claim C1: a token `w` at position `i` of its sentence's word-tokenization
that survives the punctuation filter is emitted unchanged exactly when
`(w.isupper() or i > 0) and len(w) > 1`, and lowercased otherwise; in
particular single-character tokens are always lowercased, fully upper-case
multi-character tokens are preserved at any position (position 0 included),
and the sentence-initial word "This" becomes "this". -/
theorem C1_case_fold_policy (nlp : NLP) (doc sent w : String) (i : ℕ)
    (hs : sent ∈ nlp.sent_tokenize doc)
    (hw : (nlp.word_tokenize sent).get? i = some w)
    (hp : pyIn w pythonPunctuation = false) :
    caseNormalize i w ∈ tokenize_and_lowercase nlp doc ∧
    ((pyIsUpper w = true ∨ 0 < i) ∧ 1 < w.length → caseNormalize i w = w) ∧
    (¬ ((pyIsUpper w = true ∨ 0 < i) ∧ 1 < w.length) → caseNormalize i w = pyLower w) ∧
    (w.length ≤ 1 → caseNormalize i w = pyLower w) ∧
    caseNormalize 0 "This" = "this" := by
  refine ⟨?_, fun h => if_pos h, fun h => if_neg h,
    fun h => if_neg (fun hc => absurd hc.2 (by omega)), by decide⟩
  exact (mem_tokenize_and_lowercase nlp doc _).mpr
    ⟨sent, hs, (i, w), mem_enum_of_get? _ i w hw, hp, rfl⟩

/-- Witness for C1: in the sentence "BRCA1 is an important gene .", the
sentence-initial acronym "BRCA1" is kept fully uppercase in the output. -/
theorem C1_case_fold_policy_witness :
    caseNormalize 0 "BRCA1" ∈
      tokenize_and_lowercase (simpleNLP id) "BRCA1 is an important gene ." ∧
    caseNormalize 0 "BRCA1" = "BRCA1" := by
  have h := C1_case_fold_policy (simpleNLP id) "BRCA1 is an important gene ."
    "BRCA1 is an important gene ." "BRCA1" 0 (by decide) (by decide) (by decide)
  exact ⟨h.1, h.2.1 (by decide)⟩

/-- Claim C9: on an empty or whitespace-only input string the normalizer
yields the empty token sequence (and, the embedding being total, no error);
the Punkt sentence tokenizer's behavior on such input — no sentences — is
supplied as the hypothesis `hpunkt`, since it is NLTK library code. -/
theorem C9_empty_input (nlp : NLP) (stop : List String) (doc : String)
    (hpunkt : ∀ s : String, s.toList.all Char.isWhitespace = true →
      nlp.sent_tokenize s = [])
    (hdoc : doc.toList.all Char.isWhitespace = true) :
    tokenize_and_lowercase nlp doc = [] ∧ all_preprocess nlp stop doc = [] := by
  have h := hpunkt doc hdoc
  constructor <;> simp [tokenize_and_lowercase, all_preprocess, h]

/-- Witness for C9: the empty string and a whitespace-only string produce
empty token sequences. -/
theorem C9_empty_input_witness :
    (tokenize_and_lowercase (simpleNLP id) "" = [] ∧
      all_preprocess (simpleNLP id) [] "" = []) ∧
    all_preprocess (simpleNLP id) [] "  " = [] := by
  have h1 := C9_empty_input (simpleNLP id) [] ""
    (fun s hs => by
      show simple_sent_tokenize s = []
      unfold simple_sent_tokenize
      rw [if_pos hs]) (by decide)
  have h2 := C9_empty_input (simpleNLP id) [] "  "
    (fun s hs => by
      show simple_sent_tokenize s = []
      unfold simple_sent_tokenize
      rw [if_pos hs]) (by decide)
  exact ⟨h1, h2.2⟩

/-- Claim C10 counterexample: the final clause of the claim is impossible.
NLTK's Snowball stemmer lowercases its argument before stemming, and the
case policy emits each surviving token either unchanged or lowercased, so
the stemmed vocabulary term obtained from a token of surface word `w` is
the same at every sentence position and under either casing decision: the
same surface word can never map to two different vocabulary terms. -/
theorem C10_counterexample :
    ¬ ∃ (rules : String → String) (i j : ℕ) (w : String),
        nltk_stem rules (caseNormalize i w) ≠ nltk_stem rules (caseNormalize j w) := by
  rintro ⟨rules, i, j, w, hne⟩
  apply hne
  have key : ∀ k : ℕ, pyLower (caseNormalize k w) = pyLower w := by
    intro k
    unfold caseNormalize
    split
    · rfl
    · exact pyLower_idem w
  simp only [nltk_stem, key]

/-- Claim C10 (amended): a multi-character token at sentence position `i > 0`
is emitted with its original case even when neither fully upper- nor
lower-case (mid-sentence "Important" stays "Important"); the case-sensitive
stopword filter therefore retains capitalized mid-sentence occurrences of
lowercase stopword entries such as "The"; but because the Snowball stemmer
lowercases its input, a retained occurrence always maps to the one term
`stem(lower(w))` — position and capitalization decide only whether the
surface word is retained (mid-sentence "The" contributes the term "the")
or dropped (sentence-initial "The" is lowercased and stopword-filtered),
never which of two distinct terms it maps to. -/
theorem C10_amended_case_policy :
    (∀ (i : ℕ) (w : String), 0 < i → 1 < w.length → caseNormalize i w = w) ∧
    caseNormalize 1 "Important" = "Important" ∧
    (∀ (nlp : NLP) (stop : List String) (doc : String),
        "The" ∈ tokenize_and_lowercase nlp doc → "The" ∉ stop →
        nlp.stem "The" ∈ all_preprocess nlp stop doc) ∧
    ((simpleNLP id).stem "The" = "the" ∧
      "the" ∈ all_preprocess (simpleNLP id) ["the"] "cat The ran" ∧
      "the" ∉ all_preprocess (simpleNLP id) ["the"] "The cat ran") := by
  refine ⟨fun i w hi hw => if_pos ⟨Or.inr hi, hw⟩, by decide, ?_, by decide, by decide, by decide⟩
  intro nlp stop doc hmem hstop
  unfold all_preprocess
  refine List.mem_map_of_mem _ (List.mem_filter.mpr ⟨hmem, ?_⟩)
  simpa using hstop

/-- Witness for the amended C10: a mid-sentence mixed-case token is preserved. -/
theorem C10_amended_case_policy_witness :
    caseNormalize 2 "DnaA" = "DnaA" :=
  C10_amended_case_policy.1 2 "DnaA" (by decide) (by decide)

/-- Claim C2 counterexample: on the document "a The -- b" with merged
stopword set {"the", "a", "b"}, the normalized output is ["the", "--"]:
it contains the stopword-set member "the" (mid-sentence "The" survives the
case-sensitive filter and the stemmer lowercases it) and the multi-character
punctuation-only token "--" (the source's filter `word not in punctuation`
is a contiguous-substring test on `string.punctuation`, which "--" passes
since `string.punctuation` has only one dash). -/
theorem C2_counterexample :
    all_preprocess (simpleNLP id) ["the", "a", "b"] "a The -- b" = ["the", "--"] ∧
    "the" ∈ ["the", "a", "b"] ∧ isPunctOnly "--" = true := by decide

/-- Claim C2 (amended): every token of the normalized output is the stem of a
case-normalized token whose raw form is not a contiguous substring of
`string.punctuation` (hence every single-character punctuation token is
dropped) and whose normalized form is not in the stopword set; punctuation-
only tokens that are not contiguous substrings of `string.punctuation`
(such as "..." and "--") can survive the filter, and stemming may map a
retained token onto a stopword string. -/
theorem C2_amended_output_tokens (nlp : NLP) (stop : List String) (doc t : String)
    (ht : t ∈ all_preprocess nlp stop doc) :
    ∃ (i : ℕ) (word : String),
      pyIn word pythonPunctuation = false ∧
      caseNormalize i word ∉ stop ∧
      t = nlp.stem (caseNormalize i word) := by
  unfold all_preprocess at ht
  obtain ⟨w, hw, rfl⟩ := List.mem_map.mp ht
  obtain ⟨hwtok, hwstop⟩ := List.mem_filter.mp hw
  obtain ⟨sent, hsent, p, hp, hpunct, heq⟩ := (mem_tokenize_and_lowercase nlp doc w).mp hwtok
  exact ⟨p.1, p.2, hpunct, by simpa [← heq] using hwstop, by rw [← heq]⟩

/-- Witness for the amended C2: the surviving "--" token of "x -- y" is the
stem of a non-stopword token that is not a substring of `string.punctuation`. -/
theorem C2_amended_output_tokens_witness :
    ∃ (i : ℕ) (word : String),
      pyIn word pythonPunctuation = false ∧
      caseNormalize i word ∉ ["x", "y"] ∧
      "--" = (simpleNLP id).stem (caseNormalize i word) :=
  C2_amended_output_tokens (simpleNLP id) ["x", "y"] "x -- y" "--" (by decide)

/-! ## Claims about the vocabulary builder -/

/-- Claim C5: with `min_df ≥ 1` (the source uses 3), a term enters the
vocabulary if and only if its document frequency is at least `min_df`, and
a term whose document frequency is below `min_df` has no component — not
even a zero one — in any document's term vector. -/
theorem C5_min_df_pruning (corpus : List (List String)) (min_df : ℕ) (t : String)
    (hmin : 1 ≤ min_df) :
    (t ∈ vocabulary corpus min_df ↔ min_df ≤ doc_freq corpus t) ∧
    (doc_freq corpus t < min_df →
      ∀ d ∈ corpus, ∀ k : ℕ, (t, k) ∉ term_vector (vocabulary corpus min_df) d) := by
  have hiff : t ∈ vocabulary corpus min_df ↔ min_df ≤ doc_freq corpus t := by
    constructor
    · intro h
      simpa using (List.mem_filter.mp h).2
    · intro h
      refine List.mem_filter.mpr ⟨?_, by simpa using h⟩
      have hpos : 0 < doc_freq corpus t :=
        Nat.lt_of_lt_of_le Nat.zero_lt_one (le_trans hmin h)
      obtain ⟨d, hd⟩ := List.exists_mem_of_ne_nil _ (List.length_pos.mp hpos)
      have hd' := List.mem_filter.mp hd
      exact List.mem_dedup.mpr (List.mem_flatten.mpr ⟨d, hd'.1, by simpa using hd'.2⟩)
  refine ⟨hiff, fun hlt d _ k hmem => ?_⟩
  obtain ⟨u, hu, huk⟩ := List.mem_map.mp hmem
  have ht : t ∈ vocabulary corpus min_df := by
    have heq : u = t := congrArg Prod.fst huk
    rwa [heq] at hu
  exact absurd (hiff.mp ht) (Nat.not_le_of_lt hlt)

/-- Witness for C5: in the two-document corpus [["a","b"], ["a"]] with
`min_df = 2`, the term "b" (document frequency 1) is not in the vocabulary
and has no component in the term vector of the document containing it. -/
theorem C5_min_df_pruning_witness :
    "b" ∉ vocabulary [["a", "b"], ["a"]] 2 ∧
    ("b", 1) ∉ term_vector (vocabulary [["a", "b"], ["a"]] 2) ["a", "b"] := by
  have h := C5_min_df_pruning [["a", "b"], ["a"]] 2 "b" (by decide)
  exact ⟨fun hb => absurd (h.1.mp hb) (by decide),
    h.2 (by decide) ["a", "b"] (by decide) 1⟩

/-! ## Claims about the TF-IDF weighter -/

theorem sumSq_cons (a : ℝ) (v : List ℝ) : sumSq (a :: v) = a ^ 2 + sumSq v := by
  simp [sumSq]

theorem sumSq_nonneg (v : List ℝ) : 0 ≤ sumSq v := by
  refine List.sum_nonneg ?_
  intro x hx
  obtain ⟨y, _, rfl⟩ := List.mem_map.mp hx
  exact sq_nonneg y

theorem sumSq_eq_zero_iff (v : List ℝ) : sumSq v = 0 ↔ ∀ x ∈ v, x = 0 := by
  induction v with
  | nil => simp [sumSq]
  | cons a as ih =>
      rw [sumSq_cons]
      constructor
      · intro h
        have h1 : 0 ≤ a ^ 2 := sq_nonneg a
        have h2 : 0 ≤ sumSq as := sumSq_nonneg as
        have ha : a = 0 := by
          have hsq : a ^ 2 = 0 := by linarith
          exact pow_eq_zero_iff two_ne_zero |>.mp hsq
        have has : ∀ x ∈ as, x = 0 := ih.mp (by linarith)
        intro x hx
        rcases List.mem_cons.mp hx with h | h
        · rw [h, ha]
        · exact has x h
      · intro h
        have ha : a = 0 := h a (List.mem_cons_self a as)
        have has : sumSq as = 0 := ih.mpr (fun x hx => h x (List.mem_cons_of_mem _ hx))
        rw [ha, has]
        norm_num

theorem sumSq_div (v : List ℝ) (n : ℝ) :
    sumSq (v.map (fun x => x / n)) = sumSq v / n ^ 2 := by
  induction v with
  | nil => simp [sumSq]
  | cons a as ih =>
      rw [List.map_cons, sumSq_cons, sumSq_cons, ih, div_pow, div_add_div_same]

theorem l2norm_eq_zero_iff (v : List ℝ) : l2norm v = 0 ↔ ∀ x ∈ v, x = 0 := by
  unfold l2norm
  rw [Real.sqrt_eq_zero']
  constructor
  · intro h
    exact (sumSq_eq_zero_iff v).mp (le_antisymm h (sumSq_nonneg v))
  · intro h
    rw [(sumSq_eq_zero_iff v).mpr h]

theorem l2norm_l2_normalize (v : List ℝ) (h : l2norm v ≠ 0) :
    l2norm (l2_normalize v) = 1 := by
  have hS : sumSq v ≠ 0 := by
    intro h0
    apply h
    unfold l2norm
    rw [h0, Real.sqrt_zero]
  unfold l2_normalize
  rw [if_neg h]
  unfold l2norm
  rw [sumSq_div, Real.sq_sqrt (sumSq_nonneg v), div_self hS, Real.sqrt_one]

/-- Claim C3: every tf-idf vector produced by the weighter either has
Euclidean norm exactly 1 (so, within any floating-point tolerance of 1.0)
or is the all-zero vector, and a document whose raw tf-idf vector is
all-zero is returned unnormalized: it stays the zero vector. -/
theorem C3_tfidf_unit_or_zero (counts : List ℕ) (idfs : List ℝ) :
    (l2norm (tf_idf_vectorizer counts idfs) = 1 ∨
      ∀ x ∈ tf_idf_vectorizer counts idfs, x = 0) ∧
    ((∀ x ∈ raw_tfidf counts idfs, x = 0) →
      tf_idf_vectorizer counts idfs = raw_tfidf counts idfs) := by
  constructor
  · by_cases h : l2norm (raw_tfidf counts idfs) = 0
    · right
      intro x hx
      unfold tf_idf_vectorizer l2_normalize at hx
      rw [if_pos h] at hx
      exact (l2norm_eq_zero_iff _).mp h x hx
    · left
      exact l2norm_l2_normalize _ h
  · intro h
    unfold tf_idf_vectorizer l2_normalize
    rw [if_pos ((l2norm_eq_zero_iff _).mpr h)]

/-- Witness for C3: a document whose only vocabulary term has count 0 keeps
its all-zero raw vector. -/
theorem C3_tfidf_unit_or_zero_witness :
    tf_idf_vectorizer [0] [1] = raw_tfidf [0] [1] := by
  refine (C3_tfidf_unit_or_zero [0] [1]).2 ?_
  intro x hx
  simpa [raw_tfidf] using hx

/-! ## Claims about the similarity engine -/

theorem sum_sq_of_rowNorm_one {d : ℕ} (v : Fin d → ℝ) (h : rowNorm v = 1) :
    (∑ k, v k ^ 2) = 1 := by
  have hnn : 0 ≤ ∑ k, v k ^ 2 := Finset.sum_nonneg fun k _ => sq_nonneg _
  have hs : Real.sqrt (∑ k, v k ^ 2) = 1 := h
  calc (∑ k, v k ^ 2) = Real.sqrt (∑ k, v k ^ 2) ^ 2 := (Real.sq_sqrt hnn).symm
  _ = 1 := by rw [hs]; norm_num

/-- Claim C4: over componentwise non-negative rows of unit (or zero) norm —
the invariant C3 establishes for the selected tf-idf vectors — the Gram
matrix `cosine_sims = V·Vᵗ` is symmetric, every entry lies in `[0, 1]`, and
the diagonal entry of every non-zero row is exactly 1. -/
theorem C4_similarity_matrix (m d : ℕ) (V : Fin m → Fin d → ℝ)
    (hnn : ∀ i k, 0 ≤ V i k)
    (hrows : ∀ i, rowNorm (V i) = 1 ∨ ∀ k, V i k = 0) :
    (∀ i j, cosine_sims V i j = cosine_sims V j i) ∧
    (∀ i j, 0 ≤ cosine_sims V i j ∧ cosine_sims V i j ≤ 1) ∧
    (∀ i, (∃ k, V i k ≠ 0) → cosine_sims V i i = 1) := by
  have hsq : ∀ i, (∑ k, V i k ^ 2) ≤ 1 := by
    intro i
    rcases hrows i with h | h
    · exact le_of_eq (sum_sq_of_rowNorm_one (V i) h)
    · simp [h]
  refine ⟨fun i j => Finset.sum_congr rfl fun k _ => mul_comm _ _,
    fun i j => ⟨?_, ?_⟩, ?_⟩
  · exact Finset.sum_nonneg fun k _ => mul_nonneg (hnn i k) (hnn j k)
  · have hcs := Finset.sum_mul_sq_le_sq_mul_sq Finset.univ (V i) (V j)
    have h1 := hsq i
    have h2 := hsq j
    have hge : (0:ℝ) ≤ ∑ k, V i k * V j k :=
      Finset.sum_nonneg fun k _ => mul_nonneg (hnn i k) (hnn j k)
    have hA : (0:ℝ) ≤ ∑ k, V i k ^ 2 := Finset.sum_nonneg fun k _ => sq_nonneg _
    have hB : (0:ℝ) ≤ ∑ k, V j k ^ 2 := Finset.sum_nonneg fun k _ => sq_nonneg _
    unfold cosine_sims
    nlinarith [hcs, h1, h2, hge, hA, hB]
  · rintro i ⟨k0, hk0⟩
    rcases hrows i with h | h
    · unfold cosine_sims
      calc (∑ k, V i k * V i k) = ∑ k, V i k ^ 2 :=
        Finset.sum_congr rfl fun k _ => (sq (V i k)).symm
      _ = 1 := sum_sq_of_rowNorm_one (V i) h
    · exact absurd (h k0) hk0

/-- Witness for C4: the one-document, one-term unit matrix has diagonal 1. -/
theorem C4_similarity_matrix_witness :
    cosine_sims (fun _ _ => (1:ℝ) : Fin 1 → Fin 1 → ℝ) 0 0 = 1 := by
  have h := C4_similarity_matrix 1 1 (fun _ _ => (1:ℝ))
    (fun _ _ => by norm_num)
    (fun _ => Or.inl (by simp [rowNorm]))
  exact h.2.2 0 ⟨0, by norm_num⟩

/-! ## Claims about the similarity compactor -/

/-- Claim C6 counterexample: for the 2-document similarity matrix
`[[1,0],[0,1]]` and the source's `top_n = 100`, document 0's compacted list
is `[(0,1),(1,0)]`: its length 2 exceeds `min(top_n, D-1) = 1`, and it
contains the document's own self-similarity entry `(0,1)` — the source's
`nlargest(100)` runs over the full row, self included, and filters nothing. -/
theorem C6_counterexample :
    ¬ ((((similarities_dict 100 [[1, 0], [0, 1]]).getD 0 []).length ≤ 1) ∧
        (0, (1:ℚ)) ∉ (similarities_dict 100 [[1, 0], [0, 1]]).getD 0 []) := by
  decide

/-- Claim C6 (amended): each document's compacted list is the `top_n`
largest entries of its full similarity row (the row includes the document's
own self-similarity entry, which is not excluded): its length is
`min(top_n, D)` for row length `D`, all its entries come from the row, and
its scores are sorted non-increasing; in the concrete 2-document example the
self entry `(0,1)` is retained. -/
theorem C6_amended_compaction (top_n : ℕ) (sims : List (List ℚ)) (i : ℕ)
    (row : List ℚ) (hrow : sims.get? i = some row) :
    (similarities_dict top_n sims).get? i = some (nlargest top_n row.enum) ∧
    (nlargest top_n row.enum).length = min top_n row.length ∧
    List.Sorted simGE (nlargest top_n row.enum) ∧
    (∀ p ∈ nlargest top_n row.enum, p ∈ row.enum) ∧
    (0, (1:ℚ)) ∈ (similarities_dict 100 [[1, 0], [0, 1]]).getD 0 [] := by
  refine ⟨?_, ?_, ?_, ?_, by decide⟩
  · rw [List.get?_eq_getElem?] at hrow
    simp [similarities_dict, List.getElem?_map, hrow]
  · rw [nlargest, List.length_take,
      (List.perm_insertionSort simGE row.enum).length_eq, List.enum_length]
  · exact List.Pairwise.sublist (List.take_sublist _ _)
      (List.sorted_insertionSort simGE row.enum)
  · intro p hp
    exact (List.perm_insertionSort simGE row.enum).mem_iff.mp
      ((List.take_sublist _ _).subset hp)

/-- Witness for the amended C6: the compacted row of document 0 in the
2-document example has length min(100, 2) = 2 and keeps the self entry. -/
theorem C6_amended_compaction_witness :
    (nlargest 100 (List.enum [(1:ℚ), 0])).length = min 100 2 ∧
    (0, (1:ℚ)) ∈ (similarities_dict 100 [[1, 0], [0, 1]]).getD 0 [] := by
  have h := C6_amended_compaction 100 [[1, 0], [0, 1]] 0 [1, 0] (by decide)
  exact ⟨h.2.1, h.2.2.2.2⟩

/-! ## Claims about the spectral embedder -/

/-- Claim C7 (code bug): the source calls `SpectralEmbedding` with
`affinity = "precomputed"`, so the full cosine-similarity matrix itself is
the graph affinity handed to the Laplacian eigensolver and `n_neighbors`
is ignored; no k-nearest-neighbor graph is constructed, contradicting the
notebook's own markdown ("found by constructing a nearest neighbors graph
... 100 neighbors") and the spec.  On the failing input below (similarity
values scaled by 8 to stay integral) with `n_neighbors = 1`, the claimed
symmetrized kNN graph has no edge between documents 1 and 2 (each selects
document 0), yet the affinity the code actually uses keeps their nonzero
mutual similarity; between 0 and 2 the kNN graph does have an edge. -/
theorem C7_precomputed_affinity_divergence :
    sk_spectral_affinity [[8, 4, 2], [4, 8, 1], [2, 1, 8]] 1 =
      [[8, 4, 2], [4, 8, 1], [2, 1, 8]] ∧
    spec_knn_edge [[8, 4, 2], [4, 8, 1], [2, 1, 8]] 1 1 2 = false ∧
    ((([[8, 4, 2], [4, 8, 1], [2, 1, 8]] : List (List ℚ)).getD 1 []).getD 2 0 ≠ 0) ∧
    spec_knn_edge [[8, 4, 2], [4, 8, 1], [2, 1, 8]] 1 0 2 = true :=
  ⟨rfl, by decide, by decide, by decide⟩

/-! ## Claim about pipeline determinism -/

/-- Claim C8: the pipeline is a pure function of corpus, configuration and
random seed: two runs on identical inputs produce identical vocabulary,
identical tf-idf vectors and identical cluster labels.  The only
nondeterminism in the source — k-means initialization — is modelled by the
explicit seed parameter consumed by the clustering routine. -/
theorem C8_pipeline_deterministic (nlp : NLP) (stop : List String)
    (embed : List (List ℝ) → List (List ℝ))
    (kmeans : List (List ℝ) → ℕ → ℕ → ℕ → List ℕ)
    (cfg1 cfg2 : PipelineConfig) (corpus1 corpus2 : List String)
    (hcfg : cfg1 = cfg2) (hcorpus : corpus1 = corpus2) :
    full_pipeline nlp stop embed kmeans cfg1 corpus1 =
      full_pipeline nlp stop embed kmeans cfg2 corpus2 := by
  rw [hcfg, hcorpus]

/-- Witness for C8: two runs on the same tiny corpus and configuration. -/
theorem C8_pipeline_deterministic_witness :
    full_pipeline (simpleNLP id) [] id (fun _ k _ _ => List.replicate k 0)
        ⟨1, 2, 3, 4⟩ ["cat dog cat", "cat dog"] =
      full_pipeline (simpleNLP id) [] id (fun _ k _ _ => List.replicate k 0)
        ⟨1, 2, 3, 4⟩ ["cat dog cat", "cat dog"] :=
  C8_pipeline_deterministic (simpleNLP id) [] id (fun _ k _ _ => List.replicate k 0)
    ⟨1, 2, 3, 4⟩ ⟨1, 2, 3, 4⟩ ["cat dog cat", "cat dog"] ["cat dog cat", "cat dog"]
    rfl rfl

end Constellation
